import Mathlib

/-
Verification development for the legal-case similarity subsystem:
text normalizer, TF-IDF vectorizer, cosine top-k search engine, and the
case repository (metadata store + parallel vector store).

Modelling conventions:
* Python lists / numpy row matrices are Lean `List`s; a numpy matrix is a
  list of rows.
* Python floats are modelled as exact real numbers (`ℝ`); stored corpus
  vectors are modelled with exact rational entries (`ℚ`), so that dot
  products and squared norms are computable while cosine scores live in `ℝ`.
* Fallible operations return `Except`/an explicit error field; an exception
  raised before any file write leaves the persisted state unchanged, which
  the state-passing definitions reflect.
* `datetime` round-trips through `isoformat`/`fromisoformat` (Python
  standard library, external to this repository); dates are therefore
  carried as opaque strings and the validator's date clause, which can only
  ever see `isoformat` output in the states modelled here, is not re-checked.
-/

namespace LegalSim

/-! ## Text preprocessor (components/text_preprocessor.py) -/

/-- A Python value handed to `preprocess`: either a `str` or a non-string
value (the code only distinguishes these two via `isinstance`). -/
inductive PyVal where
  | str (s : String)
  | other
deriving DecidableEq

def PyVal.is_str : PyVal → Bool
  | .str _ => true
  | .other => false

/-- State of a `TextPreprocessor` object: the `enable_lemmatization` flag, the
(possibly absent) lemmatizer, and the loaded stopword set. The NLTK
lemmatizer is an external resource, so it is carried as an opaque function. -/
structure TextPreprocessor where
  enable_lemmatization : Bool
  lemmatizer : Option (String → String)
  stopwords_set : List String

/-- The module's built-in fallback stopword list
(text_preprocessor.py lines 98-103). -/
def fallback_stopwords : List String :=
  ["a", "an", "and", "are", "as", "at", "be", "by", "for", "from",
   "has", "he", "in", "is", "it", "its", "of", "on", "that", "the",
   "to", "was", "will", "with", "this", "but", "they", "have",
   "had", "what", "said", "each", "which", "their", "time", "if"]

/-- A regex word character (`\w`): alphanumeric or underscore. -/
def is_word_char (c : Char) : Bool := c.isAlphanum || c == '_'

/-- `normalize_text`: lowercase, replace every character that is neither a
word character nor whitespace with a space, collapse whitespace runs and trim
(the `re.sub(r'\s+', ' ')` + `strip()` pair is modelled by splitting on
whitespace, dropping empty pieces and re-joining with single spaces). -/
def normalize_text (text : String) : String :=
  if text == "" then ""
  else
    let replaced := text.toLower.map
      (fun c => if is_word_char c || c.isWhitespace then c else ' ')
    " ".intercalate ((replaced.split Char.isWhitespace).filter (fun w => w != ""))

/-- `tokenize_text`: NLTK `word_tokenize` is external; on the space-normalized
text produced by `normalize_text` it coincides with whitespace splitting,
which is also the code's own fallback path. Tokens that are not purely
alphabetic are discarded (`token.isalpha()`). -/
def tokenize_text (text : String) : List String :=
  if text == "" then []
  else (text.split Char.isWhitespace).filter
    (fun w => w != "" && w.all Char.isAlpha)

/-- `remove_stopwords`: drop stopwords (compared lowercased) and tokens of
length ≤ 2. -/
def remove_stopwords (tp : TextPreprocessor) (tokens : List String) : List String :=
  tokens.filter (fun t => !(tp.stopwords_set.contains t.toLower) && 2 < t.length)

/-- `lemmatize_tokens`: identity when lemmatization is disabled or no
lemmatizer is available, else apply the lemmatizer to each lowercased token. -/
def lemmatize_tokens (tp : TextPreprocessor) (tokens : List String) : List String :=
  if !tp.enable_lemmatization then tokens
  else
    match tp.lemmatizer with
    | none => tokens
    | some lem => tokens.map (fun t => lem t.toLower)

/-- `preprocess`: the full pipeline. Empty or non-string input returns `""`
before any stage runs (`if not text or not isinstance(text, str)`). -/
def preprocess (tp : TextPreprocessor) (v : PyVal) : String :=
  match v with
  | .other => ""
  | .str text =>
    if text == "" then ""
    else
      let normalized := normalize_text text
      if normalized == "" then ""
      else
        let tokens := tokenize_text normalized
        if tokens.isEmpty then ""
        else
          let filtered := remove_stopwords tp tokens
          let processed :=
            if tp.enable_lemmatization then lemmatize_tokens tp filtered
            else filtered.map String.toLower
          " ".intercalate processed

/-! ## Case repository (components/case_repository.py)

The repository's persisted state is the metadata file's `cases` array plus
the pickled vector matrix; `vectors = none` models an absent vector file
(`load_case_vectors` returning `None`). Vector rows are opaque to the
repository, hence the type parameter `V`. -/

/-- One record of the metadata file's `cases` array. The open `metadata`
map of auxiliary fields is not modelled (no claim touches it). -/
structure CaseRec where
  case_id : String
  title : String
  date : String
  file_path : String
  vector_index : ℕ
deriving DecidableEq

/-- The parts of a `CaseDocument` that `to_dict` serializes (text content and
vector are excluded by `to_dict`). -/
structure CaseDoc where
  case_id : String
  title : String
  date : String
  file_path : String
deriving DecidableEq

/-- `case_document.to_dict()` plus the repository's
`case_dict['vector_index'] = len(cases_metadata)` assignment. -/
def CaseDoc.to_rec (d : CaseDoc) (idx : ℕ) : CaseRec :=
  ⟨d.case_id, d.title, d.date, d.file_path, idx⟩

/-- Persisted repository state: metadata records and the optional vector
store. -/
structure Repo (V : Type) where
  cases : List CaseRec
  vectors : Option (List V)

def MAX_REPOSITORY_SIZE : ℕ := 1000

/-- Python's `str.strip()`: drop leading and trailing whitespace. -/
def py_strip (s : String) : String :=
  String.mk (((s.data.dropWhile Char.isWhitespace).reverse.dropWhile
    Char.isWhitespace).reverse)

/-- `_validate_case_metadata` on a structurally well-typed record: the
required fields exist by construction; `case_id`, `title` and `file_path`
must be non-empty after stripping. The date clause (`isinstance(str)` plus
`datetime.fromisoformat`) always holds for the `isoformat` strings carried
here, and `vector_index` is a non-negative integer by its `ℕ` type. -/
def valid_case (c : CaseRec) : Bool :=
  !(py_strip c.case_id == "") && !(py_strip c.title == "") &&
    !(py_strip c.file_path == "")

inductive AddErr where
  | capacity
  | duplicate
  | validation
  | vector_write_failed
deriving DecidableEq

/-- Result of one `add_case` call: the error surfaced to the caller (if any)
and the persisted state observable after the call. -/
structure AddOutcome (V : Type) where
  err : Option AddErr
  repo : Repo V

/-- The checks `add_case` performs before its first write, in source order:
capacity (`len >= MAX_REPOSITORY_SIZE`), duplicate `case_id`, validation of
the new record, then `save_case_metadata`'s re-validation of every record.
(`save_case_metadata`'s `len > MAX` check cannot fire after the first
check passed, so it is omitted.) -/
def add_case_err {V : Type} (s : Repo V) (doc : CaseDoc) : Option AddErr :=
  if MAX_REPOSITORY_SIZE ≤ s.cases.length then some .capacity
  else if s.cases.any (fun c => c.case_id == doc.case_id) then some .duplicate
  else if !(valid_case (doc.to_rec s.cases.length)) then some .validation
  else if !((s.cases ++ [doc.to_rec s.cases.length]).all valid_case) then some .validation
  else none

/-- `add_case` with both writes succeeding: all checks precede the first
write, so an error leaves the persisted state unchanged; on success the
metadata gains the new record and the vector store gains a last row
(an absent vector file becomes a one-row store, per `load_case_vectors`
returning `None`). -/
def add_case {V : Type} (s : Repo V) (doc : CaseDoc) (v : V) : AddOutcome V :=
  match add_case_err s doc with
  | some e => ⟨some e, s⟩
  | none => ⟨none, ⟨s.cases ++ [doc.to_rec s.cases.length],
                    some (s.vectors.getD [] ++ [v])⟩⟩

/-- The same call when the vector-store write (`save_case_vectors`, the last
step of `add_case`) raises: `save_case_metadata` has already completed at
that point and nothing rolls it back, so the observable persisted state has
the new metadata record but the old vector store. -/
def add_case_vector_write_fails {V : Type} (s : Repo V) (doc : CaseDoc) (_v : V) :
    AddOutcome V :=
  match add_case_err s doc with
  | some e => ⟨some e, s⟩
  | none => ⟨some .vector_write_failed,
             ⟨s.cases ++ [doc.to_rec s.cases.length], s.vectors⟩⟩

/-- Index of the first record with the given `case_id` (the `for`/`break`
scan in `remove_case`). -/
def find_first_idx : List CaseRec → String → Option ℕ
  | [], _ => none
  | c :: rest, id =>
    if c.case_id == id then some 0
    else (find_first_idx rest id).map (· + 1)

/-- The `for i, case in enumerate(...): case['vector_index'] = i` renumbering
loop, generalized over the starting index. -/
def renumber_from : ℕ → List CaseRec → List CaseRec
  | _, [] => []
  | k, c :: rest => { c with vector_index := k } :: renumber_from (k + 1) rest

inductive RemoveErr where
  | validation
  | capacity
deriving DecidableEq

/-- `remove_case`: not-found returns `False`; otherwise the record is popped
(`take i ++ drop (i+1)`), survivors are renumbered, the metadata is
re-validated and persisted, and the vector row at the original position is
deleted — but only when the vector store exists and actually has a row at
that position (`if existing_vectors is not None and remove_index < len`). -/
def remove_case {V : Type} (s : Repo V) (id : String) :
    Except RemoveErr (Bool × Repo V) :=
  match find_first_idx s.cases id with
  | none => .ok (false, s)
  | some i =>
    if !((renumber_from 0 (s.cases.take i ++ s.cases.drop (i + 1))).all valid_case) then
      .error .validation
    else if MAX_REPOSITORY_SIZE <
        (renumber_from 0 (s.cases.take i ++ s.cases.drop (i + 1))).length then
      .error .capacity
    else
      .ok (true, ⟨renumber_from 0 (s.cases.take i ++ s.cases.drop (i + 1)),
        match s.vectors with
        | none => none
        | some vs =>
          if i < vs.length then some (vs.take i ++ vs.drop (i + 1)) else some vs⟩)

/-- The `vector_index` positional check of `validate_repository`, generalized
over the expected starting index. -/
def idx_aligned : ℕ → List CaseRec → Bool
  | _, [] => true
  | k, c :: rest => (c.vector_index == k) && idx_aligned (k + 1) rest

/-- Number of rows in the vector store (0 when the vector file is absent). -/
def vec_count {V : Type} (s : Repo V) : ℕ :=
  match s.vectors with
  | none => 0
  | some vs => vs.length

/-- The repository alignment invariant: dense `vector_index` numbering and
equal metadata/vector counts. -/
def RepoInv {V : Type} (s : Repo V) : Prop :=
  idx_aligned 0 s.cases = true ∧ vec_count s = s.cases.length

/-- The parts of `validate_repository`'s report the claims refer to. -/
structure ValidationReport where
  metadata_count : ℕ
  vector_count : ℕ
  consistent : Bool
deriving DecidableEq

/-- `validate_repository`: per-record validation, capacity, metadata/vector
count comparison (skipped when the vector file is absent, as in the source),
duplicate `case_id` detection (`len(ids) != len(set(ids))`), and the
positional `vector_index` check. The `total_cases` envelope cross-check is
omitted: `save_case_metadata` always writes `total_cases = len(cases)`, so
in the states modelled here it never fires. -/
def validate_repository {V : Type} (s : Repo V) : ValidationReport :=
  let ids := s.cases.map (fun c => c.case_id)
  ⟨s.cases.length, vec_count s,
    s.cases.all valid_case
      && decide (s.cases.length ≤ MAX_REPOSITORY_SIZE)
      && (match s.vectors with
          | none => true
          | some vs => s.cases.length == vs.length)
      && (ids.dedup.length == ids.length)
      && idx_aligned 0 s.cases⟩

/-- One repository mutation, for reasoning about arbitrary call sequences. -/
inductive RepoOp (V : Type) where
  | add (doc : CaseDoc) (v : V)
  | remove (id : String)

/-- Effect of one mutation on the persisted state: a call that raises leaves
the state as it was (every raise in `add_case`/`remove_case` happens before
the corresponding write). -/
def apply_op {V : Type} (s : Repo V) : RepoOp V → Repo V
  | .add d v => (add_case s d v).repo
  | .remove id =>
    match remove_case s id with
    | .ok (_, s') => s'
    | .error _ => s

/-- A fresh repository: empty `cases` array, no vector file yet. -/
def empty_repo (V : Type) : Repo V := ⟨[], none⟩

def run_ops {V : Type} (ops : List (RepoOp V)) : Repo V :=
  ops.foldl apply_op (empty_repo V)

/-! ## Legal vectorizer (components/legal_vectorizer.py) -/

/-- State of a `LegalVectorizer` object: the `_is_fitted` flag, the fixed
vocabulary bound at construction, and the fitted per-term idf weights. -/
structure LegalVectorizer where
  is_fitted : Bool
  vocabulary : List String
  idf_weights : List ℝ

/-- A freshly constructed vectorizer: `self._is_fitted = False`, no fitted
statistics. -/
def LegalVectorizer.init (vocab : List String) : LegalVectorizer :=
  ⟨false, vocab, []⟩

/-- Whitespace tokens of a document (the token pattern restricted to the
already-normalized texts this system feeds the vectorizer). -/
def doc_tokens (d : String) : List String :=
  (d.split Char.isWhitespace).filter (fun w => w != "")

def term_count (d : String) (t : String) : ℕ := (doc_tokens d).count t

/-- Modelled from the spec: the idf statistics computed by sklearn's
`TfidfVectorizer.fit` (an external library, not part of this repository).
Per §4.2, document-frequency bounds exclude terms present in more than 80%
of documents (`max_df = 0.8`) or fewer than 2 documents (`min_df = 2`) from
contributing weight; such terms keep their vector slot with zero weight. -/
noncomputable def compute_idf (vocab : List String) (docs : List String) : List ℝ :=
  vocab.map (fun t =>
    let df := (docs.filter (fun d => (doc_tokens d).contains t)).length
    if df < 2 ∨ (0.8 : ℝ) * (docs.length : ℝ) < (df : ℝ) then 0
    else Real.log ((docs.length : ℝ) / (df : ℝ)) + 1)

/-- Modelled from the spec: sklearn's transform of one document — sublinear
(log-scaled) term frequency times the fitted idf weight, one slot per
vocabulary term (§4.2). Total: it succeeds on any document. -/
noncomputable def tfidf_row (lv : LegalVectorizer) (d : String) : List ℝ :=
  (lv.vocabulary.zip lv.idf_weights).map (fun tw =>
    let tf := term_count d tw.1
    if tf = 0 then 0 else (1 + Real.log (tf : ℝ)) * tw.2)

inductive VecErr where
  | empty_corpus
  | not_fitted
deriving DecidableEq

/-- The successful branch of `fit`: fits the statistics and sets
`_is_fitted = True`. -/
noncomputable def fit_succ (lv : LegalVectorizer) (docs : List String) :
    LegalVectorizer :=
  ⟨true, lv.vocabulary, compute_idf lv.vocabulary docs⟩

/-- `fit`: rejects an empty corpus, otherwise fits and flips the flag. -/
noncomputable def fit (lv : LegalVectorizer) (docs : List String) :
    Except VecErr LegalVectorizer :=
  if docs.isEmpty then .error .empty_corpus else .ok (fit_succ lv docs)

/-- `transform`: raises `NotFittedError` when `_is_fitted` is false, else
returns one row per document. -/
noncomputable def transform (lv : LegalVectorizer) (docs : List String) :
    Except VecErr (List (List ℝ)) :=
  if !lv.is_fitted then .error .not_fitted
  else .ok (docs.map (tfidf_row lv))

/-- Dot product of real vectors (`np.dot`). -/
def dotR (u v : List ℝ) : ℝ := (List.zipWith (· * ·) u v).sum

/-- The cosine computation of `calculate_similarity` (legal_vectorizer.py
lines 262-273) on the two transformed vectors: `np.linalg.norm` is the
square root of the self-dot-product; a zero norm on either side short-cuts
to `0.0`; the quotient is clamped into `[0, 1]`. -/
noncomputable def calculate_similarity_core (v1 v2 : List ℝ) : ℝ :=
  let dot_product := dotR v1 v2
  let norm1 := Real.sqrt (dotR v1 v1)
  let norm2 := Real.sqrt (dotR v2 v2)
  if norm1 = 0 ∨ norm2 = 0 then 0
  else max 0 (min 1 (dot_product / (norm1 * norm2)))

/-! ## Search results and similarity search engine
(models/search_result.py, components/similarity_search_engine.py) -/

/-- The metadata dictionary fields the engine reads for one case; `snippet`
is optional (`metadata.get('snippet', ...)`). -/
structure CaseMeta where
  case_id : String
  title : String
  date : String
  file_path : String
  snippet : Option String

def default_meta : CaseMeta := ⟨"", "", "", "", none⟩

structure SearchResult where
  case_id : String
  title : String
  date : String
  similarity_score : ℝ
  snippet : String
  file_path : String

/-- `SearchResult` construction including `__post_init__`: the similarity
score is clamped to `[0, 1]` (`max(0.0, min(1.0, score))`), never rejected;
the snippet source is `metadata.get('snippet', metadata.get('title',''))`
truncated to 200 characters. -/
noncomputable def mk_search_result (m : CaseMeta) (score : ℝ) : SearchResult :=
  ⟨m.case_id, m.title, m.date, max 0 (min 1 score),
   (m.snippet.getD m.title).take 200, m.file_path⟩

/-- Dot product of rational vectors. -/
def dot (u v : List ℚ) : ℚ := (List.zipWith (· * ·) u v).sum

/-- Squared euclidean norm. -/
def norm_sq (v : List ℚ) : ℚ := dot v v

/-- sklearn's `cosine_similarity` of two rows: `dot / (||u|| * ||v||)`, where
a zero-norm row yields `0.0` (sklearn row-normalization leaves zero rows
zero, the convention §4.3 also states). -/
noncomputable def cosine_sim (u v : List ℚ) : ℝ :=
  if norm_sq u = 0 ∨ norm_sq v = 0 then 0
  else ((dot u v : ℚ) : ℝ) /
    (Real.sqrt ((norm_sq u : ℚ) : ℝ) * Real.sqrt ((norm_sq v : ℚ) : ℝ))

/-- Engine state: borrowed corpus vector matrix, metadata list, and the
matrix's column count (`case_vectors.shape[1]`). -/
structure Engine where
  case_vectors : List (List ℚ)
  case_metadata : List CaseMeta
  dim : ℕ

/-- Comparison of two corpus positions by their similarity score (the sort
key of `np.argsort`). -/
def key_le (s : List ℝ) (i j : ℕ) : Prop := s.getD i 0 ≤ s.getD j 0

noncomputable instance key_le_decidable (s : List ℝ) : DecidableRel (key_le s) :=
  fun i j => inferInstanceAs (Decidable (s.getD i 0 ≤ s.getD j 0))

instance key_le_total (s : List ℝ) : IsTotal ℕ (key_le s) :=
  ⟨fun _ _ => le_total _ _⟩

instance key_le_trans (s : List ℝ) : IsTrans ℕ (key_le s) :=
  ⟨fun _ _ _ h1 h2 => le_trans h1 h2⟩

/-- `np.argsort(similarities)`: the indices `0..n-1` sorted by ascending
score. numpy's default sort guarantees an ascending-sorted permutation but
is documented unstable in general; it insertion-sorts arrays below its
small-array cutoff (16 elements), where equal keys deterministically keep
ascending index order. The model is an insertion-sort argsort: its
sortedness and permutation properties match `np.argsort` at every size,
while its tie order is faithful only for arrays within the insertion-sort
cutoff — statements about tie order must therefore carry that size bound. -/
noncomputable def argsort_asc (s : List ℝ) : List ℕ :=
  List.insertionSort (key_le s) (List.range s.length)

/-- Assembly of the `SearchResult` for corpus position `idx` (the loop body
of `search`): metadata lookup plus the clamped score. -/
noncomputable def result_at (e : Engine) (q : List ℚ) (idx : ℕ) : SearchResult :=
  mk_search_result (e.case_metadata.getD idx default_meta)
    ((e.case_vectors.map (cosine_sim q)).getD idx 0)

inductive EngineErr where
  | dimension_mismatch
deriving DecidableEq

/-- `search`: dimensionality check, cosine similarities against every corpus
row, `np.argsort(similarities)[::-1][:k]`, then result assembly in that
order. -/
noncomputable def search (e : Engine) (q : List ℚ) (k : ℕ) :
    Except EngineErr (List SearchResult) :=
  if q.length ≠ e.dim then .error .dimension_mismatch
  else .ok
    ((((argsort_asc (e.case_vectors.map (cosine_sim q))).reverse).take k).map
      (result_at e q))

/-! ## Concrete instances used by counterexamples and witnesses -/

def meta_a : CaseMeta := ⟨"A", "Case A", "2024-01-01", "a.pdf", none⟩

def meta_b : CaseMeta := ⟨"B", "Case B", "2024-01-02", "b.pdf", none⟩

/-- Two distinct one-dimensional corpus rows with equal cosine similarity to
the query `[1]` (both scores are `1`). -/
def tie_engine : Engine := ⟨[[1], [2]], [meta_a, meta_b], 1⟩

def doc1 : CaseDoc := ⟨"case-1", "Title 1", "2024-01-01T00:00:00", "cases/case-1.pdf"⟩

def doc2 : CaseDoc := ⟨"case-2", "Title 2", "2024-01-02T00:00:00", "cases/case-2.pdf"⟩

/-- An empty repository whose (empty) vector file exists. -/
def c1_start : Repo (List ℚ) := ⟨[], some []⟩

/-- A repository at capacity containing a record with `case_id = "case-1"`. -/
def full_repo : Repo (List ℚ) := ⟨List.replicate 1000 (doc1.to_rec 0), none⟩

/-- A repository with two metadata records but no vector file. -/
def no_vectors_repo : Repo (List ℚ) := ⟨[doc1.to_rec 0, doc2.to_rec 1], none⟩

/-- The state `remove_case no_vectors_repo "case-1"` leaves behind. -/
def after_c10 : Repo (List ℚ) := ⟨[doc2.to_rec 0], none⟩

def tp_w : TextPreprocessor := ⟨true, none, fallback_stopwords⟩

def vocab_w : List String := ["lien", "tort"]

/-- A consistent two-case repository with an aligned two-row vector store. -/
def repo_w : Repo (List ℚ) := ⟨[doc1.to_rec 0, doc2.to_rec 1], some [[1], [2]]⟩

/-- A concrete operation sequence: two adds and one remove. -/
def ops_w : List (RepoOp (List ℚ)) := [.add doc1 [1], .add doc2 [2], .remove "case-1"]

/-! ## Helper lemmas -/

theorem find_first_idx_none_iff (l : List CaseRec) (id : String) :
    find_first_idx l id = none ↔ ∀ c ∈ l, c.case_id ≠ id := by
  induction l with
  | nil => simp [find_first_idx]
  | cons c rest ih =>
    by_cases h : c.case_id = id
    · simp [find_first_idx, h]
    · simp [find_first_idx, h, Option.map_eq_none', ih]

theorem find_first_idx_some_lt (l : List CaseRec) (id : String) (i : ℕ)
    (h : find_first_idx l id = some i) : i < l.length := by
  induction l generalizing i with
  | nil => simp [find_first_idx] at h
  | cons c rest ih =>
    by_cases hc : c.case_id = id
    · simp [find_first_idx, hc] at h
      simp
      omega
    · simp [find_first_idx, hc] at h
      obtain ⟨j, hj, rfl⟩ := h
      have := ih j hj
      simp
      omega

theorem renumber_from_length (k : ℕ) (l : List CaseRec) :
    (renumber_from k l).length = l.length := by
  induction l generalizing k with
  | nil => rfl
  | cons c rest ih => simp [renumber_from, ih]

theorem idx_aligned_append (k : ℕ) (l : List CaseRec) (c : CaseRec)
    (h : idx_aligned k l = true) (hc : c.vector_index = k + l.length) :
    idx_aligned k (l ++ [c]) = true := by
  induction l generalizing k with
  | nil => simp [idx_aligned, hc]
  | cons a rest ih =>
    simp only [idx_aligned, Bool.and_eq_true] at h ⊢
    refine ⟨h.1, ih (k + 1) h.2 ?_⟩
    simp at hc
    omega

theorem idx_aligned_renumber (k : ℕ) (l : List CaseRec) :
    idx_aligned k (renumber_from k l) = true := by
  induction l generalizing k with
  | nil => rfl
  | cons c rest ih => simp [renumber_from, idx_aligned, ih]

theorem idx_aligned_get (l : List CaseRec) (k : ℕ) (h : idx_aligned k l = true)
    (i : ℕ) (hi : i < l.length) : (l.get ⟨i, hi⟩).vector_index = k + i := by
  induction l generalizing k i with
  | nil => simp at hi
  | cons c rest ih =>
    simp only [idx_aligned, Bool.and_eq_true, beq_iff_eq] at h
    cases i with
    | zero => simpa using h.1
    | succ n =>
      have := ih (k + 1) h.2 n (by simpa using Nat.lt_of_succ_lt_succ hi)
      simpa [List.get, Nat.add_assoc, Nat.add_comm 1 n] using this

theorem all_valid_renumber (k : ℕ) (l : List CaseRec) :
    (renumber_from k l).all valid_case = l.all valid_case := by
  induction l generalizing k with
  | nil => rfl
  | cons c rest ih => simp [renumber_from, ih, valid_case]

theorem all_valid_take_drop (l : List CaseRec) (i : ℕ)
    (h : l.all valid_case = true) :
    (l.take i ++ l.drop (i + 1)).all valid_case = true := by
  rw [List.all_eq_true] at h ⊢
  intro c hc
  rcases List.mem_append.mp hc with hm | hm
  · exact h c (List.take_subset _ _ hm)
  · exact h c (List.drop_subset _ _ hm)

theorem dotR_self_zero (v : List ℝ) (h : ∀ a ∈ v, a = 0) : dotR v v = 0 := by
  induction v with
  | nil => simp [dotR]
  | cons a rest ih =>
    have ha : a = 0 := h a (by simp)
    have hr : dotR rest rest = 0 := ih (fun x hx => h x (by simp [hx]))
    simp only [dotR, List.zipWith_cons_cons, List.sum_cons] at hr ⊢
    rw [ha, hr]
    ring

/-! ## Claim theorems -/

/-- C9: for every preprocessor state, `preprocess` on the empty string or on
a non-string value returns the empty string (the guard
`if not text or not isinstance(text, str): return ""` fires before any
pipeline stage); being a total function, it raises nothing. -/
theorem preprocess_empty_or_non_string (tp : TextPreprocessor) (v : PyVal)
    (h : v = .str "" ∨ v.is_str = false) :
    preprocess tp v = "" := by
  cases v with
  | other => rfl
  | str s =>
    rcases h with h | h
    · injection h with h'
      subst h'
      rfl
    · simp [PyVal.is_str] at h

/-- Witness for C9 at the two concrete degenerate inputs. -/
theorem preprocess_empty_or_non_string_witness :
    preprocess tp_w .other = "" ∧ preprocess tp_w (.str "") = "" :=
  ⟨preprocess_empty_or_non_string tp_w .other (Or.inr rfl),
   preprocess_empty_or_non_string tp_w (.str "") (Or.inl rfl)⟩

/-- C7: `transform` on a never-fitted vectorizer (fresh construction, no
model loaded) errors with `NotFittedError`; after any successful `fit`,
`transform` succeeds on every document list, including documents absent
from the fit corpus. -/
theorem transform_requires_fit :
    (∀ (vocab : List String) (docs : List String),
        transform (LegalVectorizer.init vocab) docs = .error .not_fitted)
    ∧ (∀ (lv lv' : LegalVectorizer) (corpus : List String),
        fit lv corpus = .ok lv' →
        ∀ docs : List String, ∃ rows, transform lv' docs = .ok rows) := by
  constructor
  · intro vocab docs
    rfl
  · intro lv lv' corpus hfit docs
    unfold fit at hfit
    by_cases hc : corpus.isEmpty
    · rw [if_pos hc] at hfit
      exact absurd hfit (by simp)
    · rw [if_neg hc] at hfit
      injection hfit with h'
      subst h'
      exact ⟨docs.map (tfidf_row (fit_succ lv corpus)), rfl⟩

/-- Witness for C7: the fresh vectorizer rejects, and the state produced by
a successful `fit` on a one-document corpus transforms an unseen document. -/
theorem transform_requires_fit_witness :
    transform (LegalVectorizer.init vocab_w) ["some doc"] = .error .not_fitted
    ∧ ∃ rows,
        transform (fit_succ (LegalVectorizer.init vocab_w) ["lien claim", "tort case"])
          ["entirely new document"] = .ok rows :=
  ⟨transform_requires_fit.1 vocab_w ["some doc"],
   transform_requires_fit.2 (LegalVectorizer.init vocab_w) _
     ["lien claim", "tort case"] rfl ["entirely new document"]⟩

/-- C8: every constructed `SearchResult` carries a similarity score in
`[0, 1]`; out-of-range inputs are clamped (high to `1`, low to `0`), not
rejected; and the cosine computation of `calculate_similarity` returns
exactly `0` when either vector is zero (zero norm). -/
theorem similarity_clamping_and_zero_norm :
    (∀ (m : CaseMeta) (x : ℝ),
        0 ≤ (mk_search_result m x).similarity_score
        ∧ (mk_search_result m x).similarity_score ≤ 1)
    ∧ (∀ (m : CaseMeta) (x : ℝ), 1 ≤ x →
        (mk_search_result m x).similarity_score = 1)
    ∧ (∀ (m : CaseMeta) (x : ℝ), x ≤ 0 →
        (mk_search_result m x).similarity_score = 0)
    ∧ (∀ v1 v2 : List ℝ, (∀ a ∈ v1, a = 0) ∨ (∀ a ∈ v2, a = 0) →
        calculate_similarity_core v1 v2 = 0) := by
  refine ⟨fun m x => ⟨le_max_left _ _, max_le zero_le_one (min_le_left _ _)⟩,
    fun m x hx => ?_, fun m x hx => ?_, fun v1 v2 hz => ?_⟩
  · show max 0 (min 1 x) = 1
    rw [min_eq_left hx, max_eq_right zero_le_one]
  · show max 0 (min 1 x) = 0
    rw [min_eq_right (hx.trans zero_le_one), max_eq_left hx]
  · unfold calculate_similarity_core
    rcases hz with hz | hz
    · rw [if_pos (Or.inl (by rw [dotR_self_zero v1 hz, Real.sqrt_zero]))]
    · rw [if_pos (Or.inr (by rw [dotR_self_zero v2 hz, Real.sqrt_zero]))]

/-- Witness for C8 at concrete scores `3/2` (clamped to 1), `-1` (clamped
to 0) and a concrete zero vector. -/
theorem similarity_clamping_and_zero_norm_witness :
    (0 ≤ (mk_search_result meta_a (3 / 2)).similarity_score
      ∧ (mk_search_result meta_a (3 / 2)).similarity_score ≤ 1)
    ∧ (mk_search_result meta_a (3 / 2)).similarity_score = 1
    ∧ (mk_search_result meta_a (-1)).similarity_score = 0
    ∧ calculate_similarity_core [0, 0] [1, 2] = 0 :=
  ⟨similarity_clamping_and_zero_norm.1 meta_a (3 / 2),
   similarity_clamping_and_zero_norm.2.1 meta_a (3 / 2) (by norm_num),
   similarity_clamping_and_zero_norm.2.2.1 meta_a (-1) (by norm_num),
   similarity_clamping_and_zero_norm.2.2.2 [0, 0] [1, 2] (Or.inl (by
     intro a ha
     simpa using ha))⟩

/-- C6: adding to a repository whose case count equals
`MAX_REPOSITORY_SIZE` surfaces the capacity error and leaves the persisted
state (both stores, hence the count) unchanged — the check precedes every
write. -/
theorem add_case_capacity_rejection (V : Type) (s : Repo V) (doc : CaseDoc)
    (v : V) (h : s.cases.length = MAX_REPOSITORY_SIZE) :
    add_case s doc v = ⟨some .capacity, s⟩ := by
  have herr : add_case_err s doc = some .capacity := by
    unfold add_case_err
    rw [if_pos h.ge]
  simp [add_case, herr]

/-- Witness for C6: a concrete repository holding exactly 1000 records. -/
theorem add_case_capacity_rejection_witness :
    full_repo.cases.length = MAX_REPOSITORY_SIZE
    ∧ add_case full_repo doc2 ([1] : List ℚ) = ⟨some .capacity, full_repo⟩ := by
  have hlen : full_repo.cases.length = MAX_REPOSITORY_SIZE := by
    show (List.replicate 1000 (doc1.to_rec 0)).length = MAX_REPOSITORY_SIZE
    rw [List.length_replicate]
    rfl
  exact ⟨hlen, add_case_capacity_rejection (List ℚ) full_repo doc2 [1] hlen⟩

/-- C5 (amended): below capacity, adding a case whose `case_id` already
exists surfaces the duplicate error and leaves both stores exactly as they
were — the duplicate check precedes every write, so no orphan vector row is
appended. -/
theorem add_case_duplicate_rejection (V : Type) (s : Repo V) (doc : CaseDoc)
    (v : V) (hcap : s.cases.length < MAX_REPOSITORY_SIZE)
    (hdup : ∃ c ∈ s.cases, c.case_id = doc.case_id) :
    add_case s doc v = ⟨some .duplicate, s⟩ := by
  have hany : s.cases.any (fun c => c.case_id == doc.case_id) = true := by
    rw [List.any_eq_true]
    obtain ⟨c, hc, he⟩ := hdup
    exact ⟨c, hc, by simp [he]⟩
  have herr : add_case_err s doc = some .duplicate := by
    unfold add_case_err
    rw [if_neg (Nat.not_le.mpr hcap), if_pos hany]
  simp [add_case, herr]

/-- C5 counterexample: at full capacity the capacity check fires first, so a
repository that is full *and* already contains the `case_id` being added
raises the capacity error, not the duplicate error the claim promises for
every such state. -/
theorem add_case_duplicate_at_capacity_counterexample :
    (doc1.to_rec 0) ∈ full_repo.cases
    ∧ (doc1.to_rec 0).case_id = doc1.case_id
    ∧ add_case full_repo doc1 ([1] : List ℚ) = ⟨some .capacity, full_repo⟩
    ∧ AddErr.capacity ≠ AddErr.duplicate := by
  refine ⟨?_, rfl, ?_, by decide⟩
  · show doc1.to_rec 0 ∈ List.replicate 1000 (doc1.to_rec 0)
    rw [List.mem_replicate]
    exact ⟨by norm_num, rfl⟩
  · have herr : add_case_err full_repo doc1 = some .capacity := by
      unfold add_case_err
      rw [if_pos ?_]
      show MAX_REPOSITORY_SIZE ≤ full_repo.cases.length
      show MAX_REPOSITORY_SIZE ≤ (List.replicate 1000 (doc1.to_rec 0)).length
      rw [List.length_replicate]
      exact le_refl 1000
    simp [add_case, herr]

/-- Witness for the amended C5: a one-case repository, re-adding the same
`case_id`. -/
theorem add_case_duplicate_rejection_witness :
    add_case (⟨[doc1.to_rec 0], some [[1]]⟩ : Repo (List ℚ)) doc1 [2]
      = ⟨some .duplicate, ⟨[doc1.to_rec 0], some [[1]]⟩⟩ :=
  add_case_duplicate_rejection (List ℚ) ⟨[doc1.to_rec 0], some [[1]]⟩ doc1 [2]
    (by decide) ⟨doc1.to_rec 0, by simp, rfl⟩

/-- C1 (code bug evidence): `add_case` writes the metadata file
(`save_case_metadata`, line 316) before the vector store
(`save_case_vectors`, line 326) and has no rollback, so when the vector
write fails on an empty repository the observable state has the new
metadata record while the vector store is unchanged — the metadata write
is observed as successful although the vector write failed, exactly the
divergence the claim forbids. `validate_repository` does detect the
resulting inconsistency. -/
theorem add_case_vector_write_failure_breaks_atomicity :
    (add_case_vector_write_fails c1_start doc1 ([1] : List ℚ)).err
        = some .vector_write_failed
    ∧ (add_case_vector_write_fails c1_start doc1 ([1] : List ℚ)).repo.cases
        = [doc1.to_rec 0]
    ∧ (add_case_vector_write_fails c1_start doc1 ([1] : List ℚ)).repo.vectors
        = some []
    ∧ c1_start.cases = []
    ∧ (validate_repository
        (add_case_vector_write_fails c1_start doc1 ([1] : List ℚ)).repo).consistent
        = false :=
  ⟨rfl, rfl, rfl, rfl, rfl⟩

/-- C10: when the persisted vector store is absent, or has no row at the
removed case's position, `remove_case` on a present `case_id` still removes
and renumbers the metadata, persists it, returns `True`, and leaves the
vector store untouched (`if existing_vectors is not None and remove_index <
len(existing_vectors)` guards the vector deletion); concretely, such a
successful removal can leave the metadata count and vector count unequal. -/
theorem remove_case_ignores_missing_vector_rows :
    (∀ (V : Type) (s : Repo V) (id : String) (i : ℕ),
      find_first_idx s.cases id = some i →
      (renumber_from 0 (s.cases.take i ++ s.cases.drop (i + 1))).all valid_case
        = true →
      s.cases.length ≤ MAX_REPOSITORY_SIZE →
      ((s.vectors = none →
          remove_case s id = .ok (true,
            ⟨renumber_from 0 (s.cases.take i ++ s.cases.drop (i + 1)), none⟩))
        ∧ (∀ vs, s.vectors = some vs → vs.length ≤ i →
          remove_case s id = .ok (true,
            ⟨renumber_from 0 (s.cases.take i ++ s.cases.drop (i + 1)), some vs⟩))))
    ∧ (remove_case no_vectors_repo "case-1" = .ok (true, after_c10)
        ∧ after_c10.cases.length ≠ vec_count after_c10) := by
  constructor
  · intro V s id i hfind hvalid hcap
    have hi := find_first_idx_some_lt _ _ _ hfind
    have hlen : (renumber_from 0 (s.cases.take i ++ s.cases.drop (i + 1))).length
        = s.cases.length - 1 := by
      rw [renumber_from_length, List.length_append, List.length_take,
        List.length_drop]
      omega
    have hnocap : ¬ (MAX_REPOSITORY_SIZE <
        (renumber_from 0 (s.cases.take i ++ s.cases.drop (i + 1))).length) := by
      rw [hlen]
      omega
    constructor
    · intro hnone
      simp only [remove_case, hfind]
      rw [if_neg (by simp [hvalid]), if_neg hnocap, hnone]
    · intro vs hvs hle
      simp only [remove_case, hfind, hvs]
      rw [if_neg (by simp [hvalid]), if_neg hnocap, if_neg (by omega)]
  · exact ⟨rfl, by decide⟩

/-- Witness for C10 at a concrete two-case repository with no vector file. -/
theorem remove_case_ignores_missing_vector_rows_witness :
    remove_case no_vectors_repo "case-2" = .ok (true,
      ⟨renumber_from 0 (no_vectors_repo.cases.take 1 ++ no_vectors_repo.cases.drop 2),
        none⟩) :=
  (remove_case_ignores_missing_vector_rows.1 (List ℚ) no_vectors_repo "case-2" 1
    rfl (by decide) (by decide)).1 rfl

theorem repo_inv_add {V : Type} (s : Repo V) (d : CaseDoc) (v : V)
    (h : RepoInv s) : RepoInv (add_case s d v).repo := by
  unfold add_case
  cases he : add_case_err s d with
  | some e => simpa using h
  | none =>
    have hgd : (s.vectors.getD []).length = s.cases.length := by
      cases hv : s.vectors with
      | none =>
        have h2 := h.2
        simp only [vec_count, hv] at h2
        simpa using h2
      | some vs => simpa [vec_count, hv] using h.2
    refine ⟨idx_aligned_append 0 s.cases _ h.1 (by simp [CaseDoc.to_rec]), ?_⟩
    simp [vec_count, hgd]

theorem remove_case_outcomes {V : Type} (s : Repo V) (id : String) :
    remove_case s id = .ok (false, s)
    ∨ (∃ e, remove_case s id = .error e)
    ∨ (∃ i, find_first_idx s.cases id = some i
        ∧ remove_case s id = .ok (true,
            ⟨renumber_from 0 (s.cases.take i ++ s.cases.drop (i + 1)),
              match s.vectors with
              | none => none
              | some vs =>
                if i < vs.length then some (vs.take i ++ vs.drop (i + 1))
                else some vs⟩)) := by
  cases hfind : find_first_idx s.cases id with
  | none => exact Or.inl (by simp [remove_case, hfind])
  | some i =>
    refine Or.inr ?_
    simp only [remove_case, hfind]
    split
    · exact Or.inl ⟨_, rfl⟩
    · split
      · exact Or.inl ⟨_, rfl⟩
      · exact Or.inr ⟨i, rfl, rfl⟩

theorem repo_inv_apply {V : Type} (s : Repo V) (op : RepoOp V) (h : RepoInv s) :
    RepoInv (apply_op s op) := by
  cases op with
  | add d v => exact repo_inv_add s d v h
  | remove id =>
    show RepoInv (match remove_case s id with
      | .ok (_, s') => s'
      | .error _ => s)
    rcases remove_case_outcomes s id with hr | ⟨e, hr⟩ | ⟨i, hfind, hr⟩ <;> rw [hr]
    · exact h
    · exact h
    · have hi := find_first_idx_some_lt _ _ _ hfind
      cases hv : s.vectors with
      | none =>
        exfalso
        have h2 := h.2
        simp only [vec_count, hv] at h2
        omega
      | some vs =>
        have hvl : vs.length = s.cases.length := by
          simpa [vec_count, hv] using h.2
        refine ⟨idx_aligned_renumber 0 _, ?_⟩
        simp only [hv]
        rw [if_pos (by omega)]
        simp only [vec_count, renumber_from_length, List.length_append,
          List.length_take, List.length_drop]
        omega

theorem run_ops_inv_aux {V : Type} (ops : List (RepoOp V)) :
    ∀ s : Repo V, RepoInv s → RepoInv (ops.foldl apply_op s) := by
  induction ops with
  | nil => intro s h; simpa using h
  | cons op rest ih => intro s h; exact ih _ (repo_inv_apply s op h)

/-- C4: after any sequence of `add_case`/`remove_case` calls starting from a
fresh repository, every metadata record's `vector_index` equals its
position and the metadata and vector counts agree; `remove_case` on an
absent `case_id` returns `False` without change; and `remove_case` on a
present `case_id` (in a valid, capacity-respecting state with an aligned
vector store) deletes exactly the vector row at the case's original
position, leaving the surviving rows — `take i ++ drop (i+1)` — in their
original relative order, with survivors densely renumbered. -/
theorem repository_index_invariant (V : Type) :
    (∀ ops : List (RepoOp V),
      (∀ (i : ℕ) (hi : i < (run_ops ops).cases.length),
        ((run_ops ops).cases.get ⟨i, hi⟩).vector_index = i)
      ∧ vec_count (run_ops ops) = (run_ops ops).cases.length)
    ∧ (∀ (s : Repo V) (id : String), (∀ c ∈ s.cases, c.case_id ≠ id) →
        remove_case s id = .ok (false, s))
    ∧ (∀ (s : Repo V) (id : String) (i : ℕ) (vs : List V),
        find_first_idx s.cases id = some i →
        s.cases.all valid_case = true →
        s.cases.length ≤ MAX_REPOSITORY_SIZE →
        s.vectors = some vs → i < vs.length →
        remove_case s id = .ok (true,
          ⟨renumber_from 0 (s.cases.take i ++ s.cases.drop (i + 1)),
            some (vs.take i ++ vs.drop (i + 1))⟩)) := by
  refine ⟨?_, ?_, ?_⟩
  · intro ops
    have hinv : RepoInv (run_ops ops) :=
      run_ops_inv_aux ops (empty_repo V) ⟨rfl, rfl⟩
    exact ⟨fun i hi => by simpa using idx_aligned_get _ 0 hinv.1 i hi, hinv.2⟩
  · intro s id h
    simp [remove_case, (find_first_idx_none_iff s.cases id).mpr h]
  · intro s id i vs hfind hvalid hcap hvs hi
    have hvalid' : (renumber_from 0
        (s.cases.take i ++ s.cases.drop (i + 1))).all valid_case = true := by
      rw [all_valid_renumber]
      exact all_valid_take_drop _ _ hvalid
    have hilen := find_first_idx_some_lt _ _ _ hfind
    have hlen : (renumber_from 0
        (s.cases.take i ++ s.cases.drop (i + 1))).length
        = s.cases.length - 1 := by
      rw [renumber_from_length, List.length_append, List.length_take,
        List.length_drop]
      omega
    simp only [remove_case, hfind, hvs]
    rw [if_neg (by simp [hvalid']), if_neg (by rw [hlen]; omega), if_pos hi]

theorem argsort_asc_length (s : List ℝ) : (argsort_asc s).length = s.length := by
  rw [argsort_asc]
  exact ((List.perm_insertionSort _ _).length_eq).trans (List.length_range _)

theorem getD_map_lt (f : List ℚ → ℝ) (l : List (List ℚ)) (i : ℕ)
    (h : i < l.length) : (l.map f).getD i 0 = f (l.getD i []) := by
  induction l generalizing i with
  | nil => simp at h
  | cons a l' ih =>
    cases i with
    | zero => rfl
    | succ n =>
      rw [List.map_cons, List.getD_cons_succ, List.getD_cons_succ]
      exact ih n (by simpa using Nat.lt_of_succ_lt_succ h)

theorem pair_sublist_range (i j n : ℕ) (hij : i < j) (hjn : j < n) :
    List.Sublist [i, j] (List.range n) := by
  induction n with
  | zero => omega
  | succ m ih =>
    rw [List.range_succ]
    by_cases hj : j < m
    · exact (ih hj).trans (List.sublist_append_left _ _)
    · have hj' : j = m := by omega
      subst hj'
      exact List.Sublist.append
        (List.singleton_sublist.mpr (List.mem_range.mpr hij))
        (List.Sublist.refl [j])

/-- C3: with a matching query dimensionality and an aligned corpus, `search`
returns exactly `min k n` results whose similarity scores are non-increasing
from first to last. -/
theorem search_length_and_ranking_order (e : Engine) (q : List ℚ) (k : ℕ)
    (hdim : q.length = e.dim)
    (hlen : e.case_vectors.length = e.case_metadata.length) :
    ∃ rs, search e q k = .ok rs
      ∧ rs.length = min k e.case_metadata.length
      ∧ List.Pairwise
          (fun a b => b.similarity_score ≤ a.similarity_score) rs := by
  have hs : search e q k = .ok
      ((((argsort_asc (e.case_vectors.map (cosine_sim q))).reverse).take k).map
        (result_at e q)) := by
    unfold search
    rw [if_neg (by simp [hdim])]
  refine ⟨_, hs, ?_, ?_⟩
  · rw [List.length_map, List.length_take, List.length_reverse,
      argsort_asc_length, List.length_map, hlen]
  · have hsort : List.Sorted (key_le (e.case_vectors.map (cosine_sim q)))
        (argsort_asc (e.case_vectors.map (cosine_sim q))) :=
      List.sorted_insertionSort _ _
    have hrev : List.Pairwise
        (fun a b => key_le (e.case_vectors.map (cosine_sim q)) b a)
        (argsort_asc (e.case_vectors.map (cosine_sim q))).reverse :=
      List.pairwise_reverse.mpr hsort
    have htake := List.Pairwise.sublist (List.take_sublist k _) hrev
    rw [List.pairwise_map]
    refine htake.imp ?_
    intro a b hab
    show max 0 (min 1 ((e.case_vectors.map (cosine_sim q)).getD b 0))
      ≤ max 0 (min 1 ((e.case_vectors.map (cosine_sim q)).getD a 0))
    exact max_le_max le_rfl (min_le_min le_rfl hab)

/-- Witness for C3: the two-case engine, a matching one-dimensional query,
`k = 5 > n = 2`. -/
theorem search_length_and_ranking_order_witness :
    ∃ rs, search tie_engine [1] 5 = .ok rs
      ∧ rs.length = min 5 tie_engine.case_metadata.length
      ∧ List.Pairwise
          (fun a b => b.similarity_score ≤ a.similarity_score) rs :=
  search_length_and_ranking_order tie_engine [1] 5 rfl rfl

theorem cosine_sim_one_one : cosine_sim ([1] : List ℚ) ([1] : List ℚ) = 1 := by
  unfold cosine_sim
  rw [if_neg (by norm_num [norm_sq, dot])]
  norm_num [norm_sq, dot, Real.sqrt_one]

theorem cosine_sim_one_two : cosine_sim ([1] : List ℚ) ([2] : List ℚ) = 1 := by
  unfold cosine_sim
  rw [if_neg (by norm_num [norm_sq, dot])]
  have h4 : Real.sqrt (((norm_sq [2] : ℚ) : ℝ)) = 2 := by
    rw [show (((norm_sq [2] : ℚ) : ℝ)) = 2 ^ 2 by norm_num [norm_sq, dot]]
    exact Real.sqrt_sq (by norm_num)
  rw [h4]
  norm_num [norm_sq, dot, Real.sqrt_one]

/-- C2 counterexample: in `tie_engine`, rows 0 and 1 have equal cosine
similarity to the query, yet `search` returns row 1 (`"B"`) before row 0
(`"A"`): `np.argsort(...)[::-1]` reverses a stable ascending argsort, so
tied rows come out in reverse positional order, not the claimed original
order. -/
theorem search_tie_order_counterexample :
    cosine_sim ([1] : List ℚ) ([1] : List ℚ)
        = cosine_sim ([1] : List ℚ) ([2] : List ℚ)
    ∧ (search tie_engine [1] 2).map (fun rs => rs.map SearchResult.case_id)
        = .ok ["B", "A"] := by
  have hsims : tie_engine.case_vectors.map (cosine_sim [1]) = [1, 1] := by
    show [cosine_sim [1] [1], cosine_sim [1] [2]] = [1, 1]
    rw [cosine_sim_one_one, cosine_sim_one_two]
  have hsort : argsort_asc (tie_engine.case_vectors.map (cosine_sim [1]))
      = [0, 1] := by
    rw [hsims]
    show List.insertionSort (key_le [1, 1]) (List.range 2) = [0, 1]
    rw [show List.range 2 = [0, 1] from by decide]
    simp only [List.insertionSort, List.orderedInsert]
    rw [if_pos (show key_le [(1 : ℝ), 1] 0 1 from le_refl 1)]
  have hmain : search tie_engine [1] 2
      = .ok [result_at tie_engine [1] 1, result_at tie_engine [1] 0] := by
    unfold search
    rw [if_neg (by decide), hsort]
    rfl
  refine ⟨cosine_sim_one_one.trans cosine_sim_one_two.symm, ?_⟩
  rw [hmain]
  rfl

/-- C2 (amended): tied rows are not returned in the corpus's original
positional order. For corpora within numpy's 16-element insertion-sort
cutoff — where `np.argsort`'s tie order is deterministic (ascending) —
when two corpus rows `i < j` are tied on cosine similarity and both are
returned (`n ≤ k`), `search` lists row `j`'s result before row `i`'s:
the descending ranking reverses the ascending argsort, so ties appear in
*reverse* positional order. For larger corpora numpy documents its default
sort as unstable, so no tie order is guaranteed at all. -/
theorem search_ties_reverse_positional_order (e : Engine) (q : List ℚ)
    (k i j : ℕ) (_hsmall : e.case_vectors.length ≤ 16)
    (hij : i < j) (hjn : j < e.case_vectors.length)
    (hk : e.case_vectors.length ≤ k) (hdim : q.length = e.dim)
    (htie : cosine_sim q (e.case_vectors.getD i [])
        = cosine_sim q (e.case_vectors.getD j [])) :
    ∃ rs, search e q k = .ok rs
      ∧ List.Sublist [result_at e q j, result_at e q i] rs := by
  have hslen : (e.case_vectors.map (cosine_sim q)).length
      = e.case_vectors.length := List.length_map _ _
  have hkey : key_le (e.case_vectors.map (cosine_sim q)) i j := by
    show (e.case_vectors.map (cosine_sim q)).getD i 0
      ≤ (e.case_vectors.map (cosine_sim q)).getD j 0
    rw [getD_map_lt _ _ i (by omega), getD_map_lt _ _ j hjn, htie]
  have hpair : List.Sublist [i, j]
      (argsort_asc (e.case_vectors.map (cosine_sim q))) := by
    rw [argsort_asc]
    refine List.pair_sublist_insertionSort hkey ?_
    rw [hslen]
    exact pair_sublist_range i j _ hij hjn
  have hrev : List.Sublist [j, i]
      ((argsort_asc (e.case_vectors.map (cosine_sim q))).reverse) := by
    simpa using hpair.reverse
  have htk : ((argsort_asc (e.case_vectors.map (cosine_sim q))).reverse).take k
      = (argsort_asc (e.case_vectors.map (cosine_sim q))).reverse :=
    List.take_of_length_le (by rw [List.length_reverse, argsort_asc_length, hslen]; omega)
  have hs : search e q k = .ok
      ((((argsort_asc (e.case_vectors.map (cosine_sim q))).reverse).take k).map
        (result_at e q)) := by
    unfold search
    rw [if_neg (by simp [hdim])]
  refine ⟨_, hs, ?_⟩
  rw [htk]
  exact hrev.map (result_at e q)

/-- Witness for the amended C2 at the concrete tied engine. -/
theorem search_ties_reverse_positional_order_witness :
    ∃ rs, search tie_engine [1] 2 = .ok rs
      ∧ List.Sublist [result_at tie_engine [1] 1, result_at tie_engine [1] 0] rs :=
  search_ties_reverse_positional_order tie_engine [1] 2 0 1
    (by norm_num [tie_engine]) (by norm_num)
    (by norm_num [tie_engine]) (by norm_num [tie_engine]) rfl
    (cosine_sim_one_one.trans cosine_sim_one_two.symm)

/-- Witness for C4: a concrete add/add/remove sequence, a removal of an
absent id, and a removal of the first of two aligned cases. -/
theorem repository_index_invariant_witness :
    vec_count (run_ops ops_w) = (run_ops ops_w).cases.length
    ∧ remove_case repo_w "absent-id" = .ok (false, repo_w)
    ∧ remove_case repo_w "case-1" = .ok (true,
        ⟨renumber_from 0 (repo_w.cases.take 0 ++ repo_w.cases.drop 1),
          some ((([[1], [2]] : List (List ℚ)).take 0) ++ [[1], [2]].drop 1)⟩) :=
  ⟨((repository_index_invariant (List ℚ)).1 ops_w).2,
   (repository_index_invariant (List ℚ)).2.1 repo_w "absent-id" (by decide),
   (repository_index_invariant (List ℚ)).2.2 repo_w "case-1" 0 [[1], [2]] rfl
     (by decide) (by decide) rfl (by decide)⟩

end LegalSim
